import Mathlib

/-!
Verification development for the NovaLink stream receivers
(UnrealIntegration/NovaLink): a pair of websocket client receivers,
UAudioReceiver (AudioReceiver.cpp/.h) and UEmotionReceiver
(EmotionReceiver.cpp/.h), sharing one session lifecycle state machine.

The embedding is shallow: the receiver's fields become a state record,
each C++ member function becomes a Lean function from state to
(state, list of observable effects).  The transport (IWebSocket) and the
engine's JSON utilities are external collaborators; the transport is
modelled by an identifier plus its own connected flag, and the JSON
parser's output is passed in as an already-parsed value.
-/

/-- Model of an IWebSocket transport handle held by a receiver: an identity
(so effects can name which transport a callback registration or close
request targets) and the transport-side connected flag consulted by
`StopConnection` via `WebSocket->IsConnected()`. -/
structure Transport where
  tid : Nat
  isConnected : Bool
deriving DecidableEq

/-- The four delegate slots a receiver binds on its transport in
`StartConnection`: OnConnected, OnConnectionError, OnClosed and the
message delegate (OnRawMessage for audio, OnMessage for emotion). -/
inductive CallbackKind where
  | connected
  | connectionError
  | closed
  | message
deriving DecidableEq

/-- Observable effects of running a receiver member function: log lines,
delegate (un)registrations on a transport, transport requests, and
listener broadcasts.  Audio chunks are byte lists; emotion updates are
the decoded name-to-value mapping (floats idealised as rationals). -/
inductive Effect where
  | logWarning (msg : String)
  | logError (msg : String)
  | removeAllCallback (tid : Nat) (cb : CallbackKind)
  | addCallback (tid : Nat) (cb : CallbackKind)
  | closeRequest (tid : Nat) (code : Nat) (reason : String)
  | openTransport (url : String) (tid : Nat)
  | connectRequest (tid : Nat)
  | broadcastConnectionState (b : Bool)
  | broadcastAudioChunk (bytes : List Nat)
  | broadcastEmotionUpdate (vals : List (String × Rat))
deriving DecidableEq

/-- The per-variant constant strings: each receiver's default url, its
close reason passed to `Close(1000, ...)`, the empty-url warning text and
the connection-error log text. -/
structure Cfg where
  defaultUrl : String
  closeReason : String
  urlWarning : String
  errLogText : String
deriving DecidableEq

/-- The constants of UAudioReceiver (AudioReceiver.cpp). -/
def audioCfg : Cfg :=
  { defaultUrl := "ws://localhost:5000/ws/audio"
    closeReason := "AudioReceiver Stop"
    urlWarning := "NovaLink AudioReceiver requires a websocket URL."
    errLogText := "NovaLink AudioReceiver connection error: " }

/-- The constants of UEmotionReceiver (EmotionReceiver.cpp). -/
def emotionCfg : Cfg :=
  { defaultUrl := "ws://localhost:5000/ws/emotion"
    closeReason := "EmotionReceiver Stop"
    urlWarning := "NovaLink EmotionReceiver requires a websocket URL."
    errLogText := "NovaLink EmotionReceiver connection error: " }

/-- The receiver's state: the configured default url property
`WebSocketUrl`, the cached flag `bIsConnected`, and the owned
`WebSocket` handle (`TSharedPtr<IWebSocket>`, `none` when not valid). -/
structure ReceiverState where
  webSocketUrl : String
  bIsConnected : Bool
  webSocket : Option Transport
deriving DecidableEq

/-- Embeds the constructor (AudioReceiver.cpp lines 12-16 and
EmotionReceiver.cpp lines 13-17): default url set, `bIsConnected` false,
no transport handle. -/
def mkReceiver (cfg : Cfg) : ReceiverState :=
  { webSocketUrl := cfg.defaultUrl, bIsConnected := false, webSocket := none }

/-- Embeds `ResetWebSocket` (AudioReceiver.cpp lines 104-111): drop the
handle and clear the connected flag. -/
def resetWebSocket (s : ReceiverState) : ReceiverState :=
  { s with webSocket := none, bIsConnected := false }

/-- Embeds `IsConnected` (AudioReceiver.cpp lines 64-67): a pure read of
the cached flag. -/
def ReceiverState.IsConnected (s : ReceiverState) : Bool :=
  s.bIsConnected

/-- Embeds `StopConnection` (AudioReceiver.cpp lines 46-62,
EmotionReceiver.cpp lines 47-63): if a transport handle is held, remove
all four callbacks and, if the transport reports itself connected,
request `Close(1000, cfg.closeReason)`; then `ResetWebSocket`. -/
def stopConnection (cfg : Cfg) (s : ReceiverState) : ReceiverState × List Effect :=
  let effs :=
    match s.webSocket with
    | some t =>
        [Effect.removeAllCallback t.tid CallbackKind.connected,
         Effect.removeAllCallback t.tid CallbackKind.connectionError,
         Effect.removeAllCallback t.tid CallbackKind.closed,
         Effect.removeAllCallback t.tid CallbackKind.message] ++
        (if t.isConnected then [Effect.closeRequest t.tid 1000 cfg.closeReason] else [])
    | none => []
  (resetWebSocket s, effs)

/-- Embeds `StartConnection` (AudioReceiver.cpp lines 18-44,
EmotionReceiver.cpp lines 19-45).  The target url is the override if
non-empty else the configured default; if that is empty, log a warning
and return.  Otherwise stop first, create a websocket for the target url
(`fresh` stands for the transport the WebSockets module returns), bind
the four callbacks and issue `Connect()`. -/
def startConnection (cfg : Cfg) (s : ReceiverState) (overrideUrl : String)
    (fresh : Transport) : ReceiverState × List Effect :=
  let targetUrl := if overrideUrl.isEmpty then s.webSocketUrl else overrideUrl
  if targetUrl.isEmpty then
    (s, [Effect.logWarning cfg.urlWarning])
  else
    let stopped := stopConnection cfg s
    let s2 := { stopped.1 with webSocket := some fresh }
    (s2,
      stopped.2 ++
        [Effect.openTransport targetUrl fresh.tid,
         Effect.addCallback fresh.tid CallbackKind.connected,
         Effect.addCallback fresh.tid CallbackKind.connectionError,
         Effect.addCallback fresh.tid CallbackKind.closed,
         Effect.addCallback fresh.tid CallbackKind.message,
         Effect.connectRequest fresh.tid])

/-- Embeds `HandleConnected` (AudioReceiver.cpp lines 69-73): set the
flag and broadcast `true`. -/
def handleConnected (s : ReceiverState) : ReceiverState × List Effect :=
  ({ s with bIsConnected := true }, [Effect.broadcastConnectionState true])

/-- Embeds `HandleConnectionError` (AudioReceiver.cpp lines 75-81): log
the error, clear the flag, broadcast `false`, then `ResetWebSocket`. -/
def handleConnectionError (cfg : Cfg) (s : ReceiverState) (err : String) :
    ReceiverState × List Effect :=
  (resetWebSocket { s with bIsConnected := false },
   [Effect.logError (cfg.errLogText ++ err), Effect.broadcastConnectionState false])

/-- Embeds `HandleClosed` (AudioReceiver.cpp lines 83-88): clear the
flag, broadcast `false`, then `ResetWebSocket`; the status code, reason
and clean flag parameters are ignored. -/
def handleClosed (s : ReceiverState) (_statusCode : Int) (_reason : String)
    (_bWasClean : Bool) : ReceiverState × List Effect :=
  (resetWebSocket { s with bIsConnected := false },
   [Effect.broadcastConnectionState false])

/-- Two's-complement reinterpretation of a SIZE_T value as an int32,
embedding the `static_cast<int32>(Size)` in `HandleBinaryMessage`. -/
def int32OfSizeT (n : Nat) : Int :=
  let m : Nat := n % 2 ^ 32
  if m < 2 ^ 31 then (m : Int) else (m : Int) - 2 ^ 32

/-- Embeds `HandleBinaryMessage` (AudioReceiver.cpp lines 90-102): a null
data pointer (`none`) or zero size is silently ignored; otherwise the
buffer appends `static_cast<int32>(Size)` bytes from the data pointer
(`bytes` is the byte sequence the pointer addresses) and is broadcast.
`bytesRemaining` is accepted and unused. -/
def handleBinaryMessage (s : ReceiverState) (data : Option (List Nat))
    (size _bytesRemaining : Nat) : ReceiverState × List Effect :=
  match data with
  | none => (s, [])
  | some bytes =>
      if size = 0 then (s, [])
      else (s, [Effect.broadcastAudioChunk (bytes.take (int32OfSizeT size).toNat)])

/-- Typed JSON value variant mirroring the engine's EJson categories
(null, boolean, number, string, array, object); numbers are idealised as
rationals.  Nested payloads of arrays and objects are irrelevant to the
decoder (it never recurses) and are kept for shape. -/
inductive FJsonValue where
  | jnull
  | jbool (b : Bool)
  | jnumber (n : Rat)
  | jstring (s : String)
  | jarray (size : Nat)
  | jobject (size : Nat)
deriving DecidableEq

/-- Modelled from the spec: the engine's FJsonValue::TryGetNumber, read
as succeeding exactly when the value is a JSON number ("if the value is
numeric, include it as-is"); the numeric-looking-string case is handled
by the decoder's own explicit string branch. -/
def tryGetNumber : FJsonValue → Option Rat
  | FJsonValue.jnumber n => some n
  | _ => none

/-- Helper for the numeric-literal check: every character is a digit or
a decimal point, with at most one point in total (`dots` counts points
seen so far). -/
def digitsOneDot : List Char → Nat → Bool
  | [], _ => true
  | c :: rest, dots =>
      if c.isDigit then digitsOneDot rest dots
      else if c = '.' then dots == 0 && digitsOneDot rest 1
      else false

/-- Modelled from the spec: the engine's FString::IsNumeric applied by
the decoder — "the value is a string and its content is entirely numeric
(matches a numeric-literal grammar)": an optional leading sign, then at
least one digit, with digits and at most one decimal point. -/
def isNumericString (s : String) : Bool :=
  match s.data with
  | [] => false
  | c :: rest =>
      let body := if c = '-' ∨ c = '+' then rest else s.data
      body.any Char.isDigit && digitsOneDot body 0

/-- Digits to the natural number they denote, most significant first. -/
def digitsToNat (cs : List Char) : Nat :=
  cs.foldl (fun a c => a * 10 + (c.toNat - 48)) 0

/-- The character-level split of a numeric literal: whether it is
negated, the value of its integer digits, the value of its fraction
digits, and the number of fraction digits. -/
def atofParts (s : String) : Bool × Nat × Nat × Nat :=
  let signBody : Bool × List Char :=
    match s.data with
    | '-' :: rest => (true, rest)
    | '+' :: rest => (false, rest)
    | cs => (false, cs)
  let intPart := signBody.2.takeWhile (fun c => c ≠ '.')
  let fracPart := (signBody.2.dropWhile (fun c => c ≠ '.')).drop 1
  (signBody.1, digitsToNat intPart, digitsToNat fracPart, fracPart.length)

/-- Modelled from the spec: the engine's FCString::Atof applied by the
decoder ("parse it to float and include it"), idealised over rationals:
optional sign, integer digits, optional point and fraction digits. -/
def atofQ (s : String) : Rat :=
  let parts := atofParts s
  (if parts.1 then (-1 : Rat) else 1) *
    ((parts.2.1 : Rat) + (parts.2.2.1 : Rat) / 10 ^ parts.2.2.2)

/-- Embeds TMap::Add as used on `OutValues`: replace the value of an
existing key, else append the new pair. -/
def mapAdd (m : List (String × Rat)) (k : String) (v : Rat) : List (String × Rat) :=
  if m.any (fun p => p.1 == k) then
    m.map (fun p => if p.1 == k then (k, v) else p)
  else
    m ++ [(k, v)]

/-- The loop body of `TryParseEmotionMessage` (EmotionReceiver.cpp lines
123-143): a JSON number is added as-is; a string whose content is
numeric is added via Atof; every other value is skipped. -/
def emotionStep (acc : List (String × Rat)) (pair : String × FJsonValue) :
    List (String × Rat) :=
  match tryGetNumber pair.2 with
  | some n => mapAdd acc pair.1 n
  | none =>
      match pair.2 with
      | FJsonValue.jstring raw =>
          if isNumericString raw then mapAdd acc pair.1 (atofQ raw) else acc
      | _ => acc

/-- The extraction loop of `TryParseEmotionMessage` over the parsed
object's key/value pairs, starting from the freshly `Reset` map. -/
def extractEmotionValues (obj : List (String × FJsonValue)) : List (String × Rat) :=
  obj.foldl emotionStep []

/-- Embeds `TryParseEmotionMessage` (EmotionReceiver.cpp lines 113-146).
The engine's FJsonSerializer is an external collaborator, so the
function takes its output: `none` when deserialisation fails or yields
no valid object (malformed JSON or a non-object top level), otherwise
the parsed object's key/value pairs.  Returns the extracted mapping when
it is non-empty, `none` otherwise. -/
def tryParseEmotionMessage (parsed : Option (List (String × FJsonValue))) :
    Option (List (String × Rat)) :=
  match parsed with
  | none => none
  | some obj =>
      let vals := extractEmotionValues obj
      if vals.length > 0 then some vals else none

/-- The warning logged by `HandleMessage` on an undecodable message. -/
def invalidJsonWarning (message : String) : String :=
  "NovaLink EmotionReceiver received invalid JSON: " ++ message

/-- Embeds `HandleMessage` (EmotionReceiver.cpp lines 91-102): broadcast
the decoded mapping when `TryParseEmotionMessage` succeeds, else log the
invalid-JSON warning.  `parsed` is the external JSON parser's result for
`message`. -/
def handleMessage (s : ReceiverState) (parsed : Option (List (String × FJsonValue)))
    (message : String) : ReceiverState × List Effect :=
  match tryParseEmotionMessage parsed with
  | some vals => (s, [Effect.broadcastEmotionUpdate vals])
  | none => (s, [Effect.logWarning (invalidJsonWarning message)])

/-- Written from the spec's words, to compare with the source loop: the
mapping contains exactly the top-level pairs whose value is a JSON
number (as-is) or a string with entirely numeric content (via Atof), in
object order. -/
def specNumericFields (obj : List (String × FJsonValue)) : List (String × Rat) :=
  obj.filterMap fun pair =>
    match pair.2 with
    | FJsonValue.jnumber n => some (pair.1, n)
    | FJsonValue.jstring raw =>
        if isNumericString raw then some (pair.1, atofQ raw) else none
    | _ => none

/-- A transport callback event delivered to a receiver's session
handlers: OnConnected, OnConnectionError or OnClosed. -/
inductive TransportEvent where
  | connected
  | connectionError (msg : String)
  | closed (code : Int) (reason : String) (wasClean : Bool)
deriving DecidableEq

/-- Dispatch of one transport event to the matching handler. -/
def stepEvent (cfg : Cfg) (s : ReceiverState) : TransportEvent → ReceiverState × List Effect
  | TransportEvent.connected => handleConnected s
  | TransportEvent.connectionError m => handleConnectionError cfg s m
  | TransportEvent.closed c r w => handleClosed s c r w

/-- Runs a sequence of transport events through the session handlers,
concatenating the emitted effects. -/
def runEvents (cfg : Cfg) (s : ReceiverState) : List TransportEvent → ReceiverState × List Effect
  | [] => (s, [])
  | e :: rest =>
      let step := stepEvent cfg s e
      let tail := runEvents cfg step.1 rest
      (tail.1, step.2 ++ tail.2)

/-- The connection-state notification payloads among a list of effects,
in emission order. -/
def connStateBroadcasts (effs : List Effect) : List Bool :=
  effs.filterMap fun e =>
    match e with
    | Effect.broadcastConnectionState b => some b
    | _ => none

/-- The connection-state payload a transport event causes the handlers
to broadcast: `true` for connected, `false` for error and closed. -/
def eventBool : TransportEvent → Bool
  | TransportEvent.connected => true
  | _ => false

/-- The receiver classes declare no destructor and no finalisation
override (AudioReceiver.h lines 11-53 and EmotionReceiver.h lines 27-71
list only the constructor, the three public methods, the private
handlers and the two data members), so destroying a receiver runs no
receiver teardown code: the member handle is dropped, with no callback
unregistration, no close request and no broadcast. -/
def destructionEffects (_s : ReceiverState) : List Effect := []

lemma mapAdd_of_not_mem (m : List (String × Rat)) (k : String) (v : Rat)
    (h : ∀ p ∈ m, p.1 ≠ k) : mapAdd m k v = m ++ [(k, v)] := by
  have hc : (m.any fun p => p.1 == k) = false := by
    simp only [List.any_eq_false, beq_iff_eq]
    exact h
  simp [mapAdd, hc]

lemma specNumericFields_cons (k : String) (v : FJsonValue) (tl : List (String × FJsonValue)) :
    specNumericFields ((k, v) :: tl) =
      (match v with
        | FJsonValue.jnumber n => [(k, n)]
        | FJsonValue.jstring raw =>
            if isNumericString raw then [(k, atofQ raw)] else []
        | _ => []) ++ specNumericFields tl := by
  cases v with
  | jstring raw =>
    by_cases h : isNumericString raw = true <;>
      simp [specNumericFields, List.filterMap_cons, h]
  | jnull => simp [specNumericFields, List.filterMap_cons]
  | jbool b => simp [specNumericFields, List.filterMap_cons]
  | jnumber n => simp [specNumericFields, List.filterMap_cons]
  | jarray m => simp [specNumericFields, List.filterMap_cons]
  | jobject m => simp [specNumericFields, List.filterMap_cons]

lemma extract_go (obj : List (String × FJsonValue)) :
    ∀ acc : List (String × Rat),
      (obj.map Prod.fst).Nodup →
      (∀ p ∈ acc, p.1 ∉ obj.map Prod.fst) →
      obj.foldl emotionStep acc = acc ++ specNumericFields obj := by
  induction obj with
  | nil => intro acc _ _; simp [specNumericFields]
  | cons hd tl ih =>
    intro acc hnd hdisj
    obtain ⟨k, v⟩ := hd
    have hnd' : (k :: List.map Prod.fst tl).Nodup := hnd
    have hndtl : (tl.map Prod.fst).Nodup := (List.nodup_cons.mp hnd').2
    have hknotl : k ∉ tl.map Prod.fst := (List.nodup_cons.mp hnd').1
    have hk : ∀ p ∈ acc, p.1 ≠ k := by
      intro p hp he
      exact hdisj p hp (by simp [he])
    have hdisjtl : ∀ w : Rat, ∀ p ∈ acc ++ [(k, w)], p.1 ∉ tl.map Prod.fst := by
      intro w p hp
      rcases List.mem_append.mp hp with hpa | hpk
      · intro hmem
        exact hdisj p hpa (by simp [hmem])
      · have hpw : p = (k, w) := by simpa using hpk
        subst hpw
        exact hknotl
    have hdisjacc : ∀ p ∈ acc, p.1 ∉ tl.map Prod.fst := by
      intro p hp hmem
      exact hdisj p hp (by simp [hmem])
    cases v with
    | jnumber n =>
      rw [List.foldl_cons]
      have hstep : emotionStep acc (k, FJsonValue.jnumber n) = acc ++ [(k, n)] := by
        simp [emotionStep, tryGetNumber, mapAdd_of_not_mem acc k n hk]
      rw [hstep, ih _ hndtl (hdisjtl n), specNumericFields_cons]
      simp
    | jstring raw =>
      rw [List.foldl_cons]
      by_cases hnum : isNumericString raw = true
      · have hstep : emotionStep acc (k, FJsonValue.jstring raw) = acc ++ [(k, atofQ raw)] := by
          simp [emotionStep, tryGetNumber, hnum, mapAdd_of_not_mem acc k (atofQ raw) hk]
        rw [hstep, ih _ hndtl (hdisjtl (atofQ raw)), specNumericFields_cons]
        simp [hnum]
      · have hstep : emotionStep acc (k, FJsonValue.jstring raw) = acc := by
          simp [emotionStep, tryGetNumber, hnum]
        rw [hstep, ih _ hndtl hdisjacc, specNumericFields_cons]
        simp [hnum]
    | jnull =>
      rw [List.foldl_cons]
      have hstep : emotionStep acc (k, FJsonValue.jnull) = acc := by
        simp [emotionStep, tryGetNumber]
      rw [hstep, ih _ hndtl hdisjacc, specNumericFields_cons]
      simp
    | jbool b =>
      rw [List.foldl_cons]
      have hstep : emotionStep acc (k, FJsonValue.jbool b) = acc := by
        simp [emotionStep, tryGetNumber]
      rw [hstep, ih _ hndtl hdisjacc, specNumericFields_cons]
      simp
    | jarray m =>
      rw [List.foldl_cons]
      have hstep : emotionStep acc (k, FJsonValue.jarray m) = acc := by
        simp [emotionStep, tryGetNumber]
      rw [hstep, ih _ hndtl hdisjacc, specNumericFields_cons]
      simp
    | jobject m =>
      rw [List.foldl_cons]
      have hstep : emotionStep acc (k, FJsonValue.jobject m) = acc := by
        simp [emotionStep, tryGetNumber]
      rw [hstep, ih _ hndtl hdisjacc, specNumericFields_cons]
      simp

lemma extract_eq_spec (obj : List (String × FJsonValue))
    (hnd : (obj.map Prod.fst).Nodup) :
    extractEmotionValues obj = specNumericFields obj := by
  simpa [extractEmotionValues] using extract_go obj [] hnd (by simp)

/-- The engine parser's output for the round-trip example message, a
JSON object whose key joy maps to the number 0.8, key anger to the
string "0.1" and key label to the string "happy". -/
def exampleEmotionObj : List (String × FJsonValue) :=
  [("joy", FJsonValue.jnumber 0.8), ("anger", FJsonValue.jstring "0.1"),
   ("label", FJsonValue.jstring "happy")]

/-- C1: for a message parsed as a JSON object the emitted mapping holds
exactly the top-level pairs with numeric values (as-is) or entirely
numeric string values (parsed), all other pairs are skipped; listeners
are notified once with the mapping iff it is non-empty, and a message
yielding no entries (including a parse failure) is dropped with a logged
warning and no notification.  Concretely: the round-trip example object
(joy to number 0.8, anger to string "0.1", label to string "happy")
broadcasts the mapping joy to 0.8 and anger to 0.1 once; an object with
only the label field logs the warning; an unparseable message logs the
warning. -/
theorem c1_emotion_decoder_filter :
    (∀ obj : List (String × FJsonValue), (obj.map Prod.fst).Nodup →
      extractEmotionValues obj = specNumericFields obj
      ∧ (∀ s msg, specNumericFields obj ≠ [] →
          handleMessage s (some obj) msg
            = (s, [Effect.broadcastEmotionUpdate (specNumericFields obj)]))
      ∧ (∀ s msg, specNumericFields obj = [] →
          handleMessage s (some obj) msg
            = (s, [Effect.logWarning (invalidJsonWarning msg)])))
    ∧ (∀ s msg, handleMessage s none msg = (s, [Effect.logWarning (invalidJsonWarning msg)]))
    ∧ (∀ s msg, handleMessage s (some exampleEmotionObj) msg
        = (s, [Effect.broadcastEmotionUpdate [("joy", 0.8), ("anger", 0.1)]]))
    ∧ (∀ s msg, handleMessage s (some [("label", FJsonValue.jstring "happy")]) msg
        = (s, [Effect.logWarning (invalidJsonWarning msg)])) := by
  have hgen : ∀ obj : List (String × FJsonValue), (obj.map Prod.fst).Nodup →
      extractEmotionValues obj = specNumericFields obj
      ∧ (∀ s msg, specNumericFields obj ≠ [] →
          handleMessage s (some obj) msg
            = (s, [Effect.broadcastEmotionUpdate (specNumericFields obj)]))
      ∧ (∀ s msg, specNumericFields obj = [] →
          handleMessage s (some obj) msg
            = (s, [Effect.logWarning (invalidJsonWarning msg)])) := by
    intro obj hnd
    have hes := extract_eq_spec obj hnd
    refine ⟨hes, ?_, ?_⟩
    · intro s msg hne
      have hlen : 0 < (specNumericFields obj).length := List.length_pos.mpr hne
      simp [handleMessage, tryParseEmotionMessage, hes, hlen]
    · intro s msg he
      simp [handleMessage, tryParseEmotionMessage, hes, he]
  refine ⟨hgen, ?_, ?_, ?_⟩
  · intro s msg
    simp [handleMessage, tryParseEmotionMessage]
  · intro s msg
    have hnd : ((exampleEmotionObj.map Prod.fst)).Nodup := by
      simp [exampleEmotionObj]
    have hspec : specNumericFields exampleEmotionObj = [("joy", 0.8), ("anger", 0.1)] := by
      have h1 : isNumericString "0.1" = true := by decide
      have h2 : isNumericString "happy" = false := by decide
      have h3 : atofParts "0.1" = (false, 0, 1, 1) := by decide
      simp [specNumericFields, exampleEmotionObj, h1, h2, atofQ, h3]
      norm_num
    have := ((hgen exampleEmotionObj hnd).2.1) s msg (by rw [hspec]; simp)
    rw [this, hspec]
  · intro s msg
    have hnd : (([("label", FJsonValue.jstring "happy")].map
        (Prod.fst (α := String) (β := FJsonValue)))).Nodup := by simp
    have hspec : specNumericFields [("label", FJsonValue.jstring "happy")] = [] := by
      have h2 : isNumericString "happy" = false := by decide
      simp [specNumericFields, h2]
    exact ((hgen _ hnd).2.2) s msg hspec

theorem c1_witness :
    ((exampleEmotionObj.map Prod.fst)).Nodup
    ∧ extractEmotionValues exampleEmotionObj = specNumericFields exampleEmotionObj := by
  refine ⟨by simp [exampleEmotionObj], ?_⟩
  exact (c1_emotion_decoder_filter.1 exampleEmotionObj (by simp [exampleEmotionObj])).1

lemma int32OfSizeT_toNat_lt (n : Nat) : (int32OfSizeT n).toNat < 2 ^ 31 := by
  simp only [int32OfSizeT]
  by_cases h : n % 2 ^ 32 < 2 ^ 31
  · rw [if_pos h]
    omega
  · rw [if_neg h]
    have hm : n % 2 ^ 32 < 2 ^ 32 := Nat.mod_lt n (by norm_num)
    omega

lemma int32OfSizeT_small (n : Nat) (h : n < 2 ^ 31) : int32OfSizeT n = (n : Int) := by
  simp only [int32OfSizeT]
  have hm : n % 2 ^ 32 = n := Nat.mod_eq_of_lt (by omega)
  rw [hm, if_pos h]

lemma handleBinaryMessage_some (s : ReceiverState) (bytes : List Nat) (size rem : Nat)
    (h : size ≠ 0) :
    handleBinaryMessage s (some bytes) size rem
      = (s, [Effect.broadcastAudioChunk (bytes.take (int32OfSizeT size).toNat)]) := by
  simp [handleBinaryMessage, h]

/-- C2 as stated is false on the code: `HandleBinaryMessage` narrows the
SIZE_T size to int32 before copying, so for a buffer of 2^32+1 bytes
delivered with size 2^32+1 the broadcast chunk is not the input bytes
(the narrowed copy count is 1). -/
theorem c2_counterexample :
    (handleBinaryMessage (mkReceiver audioCfg) (some (List.replicate (2 ^ 32 + 1) 0))
        (2 ^ 32 + 1) 0).2
      ≠ [Effect.broadcastAudioChunk (List.replicate (2 ^ 32 + 1) 0)] := by
  have hcast : (int32OfSizeT (2 ^ 32 + 1)).toNat = 1 := by decide
  intro h
  rw [handleBinaryMessage_some (mkReceiver audioCfg) (List.replicate (2 ^ 32 + 1) 0)
    (2 ^ 32 + 1) 0 (by decide)] at h
  have h' : Effect.broadcastAudioChunk
        ((List.replicate (2 ^ 32 + 1) (0 : Nat)).take (int32OfSizeT (2 ^ 32 + 1)).toNat)
      :: ([] : List Effect)
      = Effect.broadcastAudioChunk (List.replicate (2 ^ 32 + 1) (0 : Nat)) :: [] := h
  injection h' with hh _
  injection hh with hb
  rw [hcast] at hb
  have hlen := congrArg List.length hb
  rw [List.length_take, List.length_replicate] at hlen
  omega

/-- C2 amended: the null-pointer and zero-size callbacks emit no
notification, and for a non-null pointer to `size` bytes with
0 < size < 2^31 (so the int32 narrowing is the identity) exactly one
chunk notification is emitted carrying exactly the input bytes,
whatever `bytesRemaining` is. -/
theorem c2_binary_forwarder :
    (∀ s size rem, handleBinaryMessage s none size rem = (s, []))
    ∧ (∀ s bytes rem, handleBinaryMessage s (some bytes) 0 rem = (s, []))
    ∧ (∀ s (bytes : List Nat) size rem, bytes.length = size → size ≠ 0 → size < 2 ^ 31 →
        handleBinaryMessage s (some bytes) size rem
          = (s, [Effect.broadcastAudioChunk bytes])) := by
  refine ⟨fun s size rem => rfl, fun s bytes rem => rfl, ?_⟩
  intro s bytes size rem hlen hnz hsmall
  rw [handleBinaryMessage_some s bytes size rem hnz, int32OfSizeT_small size hsmall,
    Int.toNat_natCast, ← hlen, List.take_length]

theorem c2_witness :
    ([(7 : Nat), 8, 9].length = 3 ∧ (3 : Nat) ≠ 0 ∧ (3 : Nat) < 2 ^ 31)
    ∧ handleBinaryMessage (mkReceiver audioCfg) (some [7, 8, 9]) 3 5
        = (mkReceiver audioCfg, [Effect.broadcastAudioChunk [7, 8, 9]]) :=
  ⟨⟨by decide, by decide, by decide⟩,
   c2_binary_forwarder.2.2 (mkReceiver audioCfg) [7, 8, 9] 3 5 rfl (by decide) (by decide)⟩

/-- C10: the forwarder converts the SIZE_T size to int32 before copying:
the emitted chunk is the first (int32)(size) bytes of the input, and it
equals the whole input iff size is at most 2^31 - 1; for larger sizes
the copied length is the narrowed 32-bit value, not size. -/
theorem c10_int32_narrowing :
    ∀ s (bytes : List Nat) size rem, bytes.length = size → size ≠ 0 →
      (handleBinaryMessage s (some bytes) size rem).2
          = [Effect.broadcastAudioChunk (bytes.take (int32OfSizeT size).toNat)]
        ∧ (bytes.take (int32OfSizeT size).toNat = bytes ↔ size ≤ 2 ^ 31 - 1) := by
  intro s bytes size rem hlen hnz
  constructor
  · rw [handleBinaryMessage_some s bytes size rem hnz]
  · constructor
    · intro htake
      have hlentake := congrArg List.length htake
      rw [List.length_take, hlen] at hlentake
      have hlt := int32OfSizeT_toNat_lt size
      omega
    · intro hle
      have hsmall : size < 2 ^ 31 := by omega
      rw [int32OfSizeT_small size hsmall, Int.toNat_natCast, ← hlen, List.take_length]

theorem c10_witness :
    ([(1 : Nat), 2, 3].length = 3 ∧ (3 : Nat) ≠ 0)
    ∧ (handleBinaryMessage (mkReceiver audioCfg) (some [1, 2, 3]) 3 0).2
        = [Effect.broadcastAudioChunk ([1, 2, 3].take (int32OfSizeT 3).toNat)]
    ∧ ([(1 : Nat), 2, 3].take (int32OfSizeT 3).toNat = [1, 2, 3] ↔ (3 : Nat) ≤ 2 ^ 31 - 1) :=
  ⟨⟨by decide, by decide⟩,
   c10_int32_narrowing (mkReceiver audioCfg) [1, 2, 3] 3 0 rfl (by decide)⟩

/-- C3: with a non-empty resolved address, `StartConnection` performs
the full `StopConnection` teardown first (so when a prior transport was
held, the very first effects unregister its four callbacks — its
callbacks cannot fire after the call), then opens a transport to the
resolved address, registers exactly the four callbacks on it and issues
the non-blocking connect request. -/
theorem c3_start_stops_first (cfg : Cfg) (s : ReceiverState) (overrideUrl : String)
    (fresh : Transport)
    (h : (if overrideUrl.isEmpty then s.webSocketUrl else overrideUrl).isEmpty = false) :
    (startConnection cfg s overrideUrl fresh).1
        = { webSocketUrl := s.webSocketUrl, bIsConnected := false, webSocket := some fresh }
    ∧ (startConnection cfg s overrideUrl fresh).2
        = (stopConnection cfg s).2 ++
            [Effect.openTransport (if overrideUrl.isEmpty then s.webSocketUrl else overrideUrl)
               fresh.tid,
             Effect.addCallback fresh.tid CallbackKind.connected,
             Effect.addCallback fresh.tid CallbackKind.connectionError,
             Effect.addCallback fresh.tid CallbackKind.closed,
             Effect.addCallback fresh.tid CallbackKind.message,
             Effect.connectRequest fresh.tid]
    ∧ (∀ old, s.webSocket = some old →
        (startConnection cfg s overrideUrl fresh).2.take 4
          = [Effect.removeAllCallback old.tid CallbackKind.connected,
             Effect.removeAllCallback old.tid CallbackKind.connectionError,
             Effect.removeAllCallback old.tid CallbackKind.closed,
             Effect.removeAllCallback old.tid CallbackKind.message]) := by
  refine ⟨?_, ?_, ?_⟩
  · simp [startConnection, h, stopConnection, resetWebSocket]
  · simp [startConnection, h]
  · intro old hold
    simp [startConnection, h, stopConnection, hold, resetWebSocket]

theorem c3_witness :
    ((if ("ws://example:1/ws".isEmpty : Bool) then
        ({ webSocketUrl := "ws://localhost:5000/ws/audio", bIsConnected := true,
           webSocket := some { tid := 0, isConnected := true } } : ReceiverState).webSocketUrl
      else "ws://example:1/ws").isEmpty = false)
    ∧ (startConnection audioCfg
        { webSocketUrl := "ws://localhost:5000/ws/audio", bIsConnected := true,
          webSocket := some { tid := 0, isConnected := true } }
        "ws://example:1/ws" { tid := 1, isConnected := false }).2.take 4
        = [Effect.removeAllCallback 0 CallbackKind.connected,
           Effect.removeAllCallback 0 CallbackKind.connectionError,
           Effect.removeAllCallback 0 CallbackKind.closed,
           Effect.removeAllCallback 0 CallbackKind.message] :=
  ⟨by decide,
   (c3_start_stops_first audioCfg
      { webSocketUrl := "ws://localhost:5000/ws/audio", bIsConnected := true,
        webSocket := some { tid := 0, isConnected := true } }
      "ws://example:1/ws" { tid := 1, isConnected := false } (by decide)).2.2
      { tid := 0, isConnected := true } rfl⟩

/-- C4: `StopConnection` is idempotent: after any call the transport
handle is released and `IsConnected` reads false; a second consecutive
call returns the same state and performs no effect at all; and a freshly
constructed receiver reads `IsConnected` false. -/
theorem c4_stop_idempotent :
    ∀ cfg s,
      ((stopConnection cfg s).1.webSocket = none
        ∧ (stopConnection cfg s).1.IsConnected = false)
      ∧ stopConnection cfg (stopConnection cfg s).1 = ((stopConnection cfg s).1, [])
      ∧ (mkReceiver cfg).IsConnected = false := by
  intro cfg s
  refine ⟨⟨rfl, rfl⟩, ?_, rfl⟩
  simp [stopConnection, resetWebSocket, ReceiverState.IsConnected]

/-- C5: when both the configured default address and the override are
empty, `StartConnection` leaves the state unchanged and performs no
transport operation: the only effect is the logged warning. -/
theorem c5_empty_address_noop (cfg : Cfg) (s : ReceiverState) (overrideUrl : String)
    (fresh : Transport) (hdef : s.webSocketUrl = "") (hov : overrideUrl = "") :
    startConnection cfg s overrideUrl fresh = (s, [Effect.logWarning cfg.urlWarning]) := by
  subst hov
  have he : ("" : String).isEmpty = true := rfl
  simp [startConnection, hdef, he]

theorem c5_witness :
    ((mkReceiver { audioCfg with defaultUrl := "" }).webSocketUrl = "" ∧ "" = "")
    ∧ startConnection audioCfg (mkReceiver { audioCfg with defaultUrl := "" }) ""
        { tid := 0, isConnected := false }
        = (mkReceiver { audioCfg with defaultUrl := "" },
           [Effect.logWarning audioCfg.urlWarning]) :=
  ⟨⟨rfl, rfl⟩,
   c5_empty_address_noop audioCfg (mkReceiver { audioCfg with defaultUrl := "" }) ""
     { tid := 0, isConnected := false } rfl rfl⟩

/-- C6: for every status code, reason and clean flag, `HandleClosed` has
the same effect on session state and connection-state notification as
`HandleConnectionError`: both leave `bIsConnected` false, broadcast
exactly one `false` notification, and release the transport handle; and
`HandleClosed` never branches on its arguments. -/
theorem c6_closed_equals_error :
    ∀ cfg s (code code' : Int) (reason reason' : String) (clean clean' : Bool) (err : String),
      (handleClosed s code reason clean).1 = (handleConnectionError cfg s err).1
      ∧ connStateBroadcasts (handleClosed s code reason clean).2
          = connStateBroadcasts (handleConnectionError cfg s err).2
      ∧ connStateBroadcasts (handleClosed s code reason clean).2 = [false]
      ∧ (handleClosed s code reason clean).1.bIsConnected = false
      ∧ (handleClosed s code reason clean).1.webSocket = none
      ∧ handleClosed s code reason clean = handleClosed s code' reason' clean' := by
  intro cfg s code code' reason reason' clean clean' err
  refine ⟨rfl, ?_, ?_, rfl, rfl, rfl⟩
  · simp [handleClosed, handleConnectionError, connStateBroadcasts]
  · simp [handleClosed, connStateBroadcasts]

lemma connStateBroadcasts_append (a b : List Effect) :
    connStateBroadcasts (a ++ b) = connStateBroadcasts a ++ connStateBroadcasts b := by
  simp [connStateBroadcasts]

lemma stepEvent_broadcasts (cfg : Cfg) (s : ReceiverState) (e : TransportEvent) :
    connStateBroadcasts (stepEvent cfg s e).2 = [eventBool e] := by
  cases e <;>
    simp [stepEvent, handleConnected, handleConnectionError, handleClosed,
      connStateBroadcasts, eventBool]

lemma runEvents_broadcasts (cfg : Cfg) (evs : List TransportEvent) :
    ∀ s, connStateBroadcasts (runEvents cfg s evs).2 = evs.map eventBool := by
  induction evs with
  | nil => intro s; simp [runEvents, connStateBroadcasts]
  | cons e rest ih =>
    intro s
    simp only [runEvents, connStateBroadcasts_append, stepEvent_broadcasts, ih, List.map_cons]
    simp [connStateBroadcasts]

/-- C7 as stated is false on the code: the handlers broadcast
unconditionally, so two consecutive closed events (realisable, e.g. two
failed sessions within one receiver lifetime) produce two consecutive
`false` notifications. -/
theorem c7_counterexample :
    ¬ List.Chain' (fun a b => a ≠ b)
        (connStateBroadcasts (runEvents audioCfg (mkReceiver audioCfg)
          [TransportEvent.closed 1000 "x" true, TransportEvent.closed 1000 "x" true]).2) := by
  rw [runEvents_broadcasts]
  simp [List.chain'_cons, eventBool]

/-- C7 amended: each transport callback event emits exactly one
connection-state notification whose payload is `true` for connected and
`false` for error/closed; consequently the notification payloads
strictly alternate exactly when the event kinds alternate between
connected and error/closed (as in connected immediately followed by
error, which emits `true` then `false`), but not for arbitrary event
sequences. -/
theorem c7_alternation (cfg : Cfg) (s : ReceiverState) (evs : List TransportEvent)
    (h : List.Chain' (fun a b => eventBool a ≠ eventBool b) evs) :
    connStateBroadcasts (runEvents cfg s evs).2 = evs.map eventBool
    ∧ List.Chain' (fun a b => a ≠ b) (connStateBroadcasts (runEvents cfg s evs).2) := by
  refine ⟨runEvents_broadcasts cfg evs s, ?_⟩
  rw [runEvents_broadcasts]
  exact (List.chain'_map eventBool).mpr h

theorem c7_witness :
    List.Chain' (fun a b => eventBool a ≠ eventBool b)
      [TransportEvent.connected, TransportEvent.connectionError "boom"]
    ∧ List.Chain' (fun a b => a ≠ b)
        (connStateBroadcasts (runEvents audioCfg (mkReceiver audioCfg)
          [TransportEvent.connected, TransportEvent.connectionError "boom"]).2) :=
  ⟨by simp [List.chain'_cons, eventBool],
   (c7_alternation audioCfg (mkReceiver audioCfg)
      [TransportEvent.connected, TransportEvent.connectionError "boom"]
      (by simp [List.chain'_cons, eventBool])).2⟩

/-- A connected audio session: the receiver caches connected = true and
holds a transport that reports itself connected. -/
def connectedAudioState : ReceiverState :=
  { webSocketUrl := "ws://localhost:5000/ws/audio", bIsConnected := true,
    webSocket := some { tid := 0, isConnected := true } }

/-- C8 is what the spec requires, but the code does not implement it:
the receiver classes declare no destructor or finalisation override, so
destroying a connected session runs none of the `StopConnection`
teardown — compare the empty destruction effects with the stop effects
on the same connected session, which unregister the four callbacks and
send the close request. -/
theorem c8_destruction_divergence :
    destructionEffects connectedAudioState = []
    ∧ Effect.closeRequest 0 1000 audioCfg.closeReason
        ∈ (stopConnection audioCfg connectedAudioState).2
    ∧ Effect.removeAllCallback 0 CallbackKind.connected
        ∈ (stopConnection audioCfg connectedAudioState).2 :=
  ⟨rfl, by decide, by decide⟩

/-- C9: `StopConnection` never emits a connection-state notification,
for every session state including a currently connected one; the
`false` notifications come only from the error and closed callbacks
(which emit exactly one each), the `true` one only from the connected
callback, and neither `StartConnection` nor the message handlers emit
any. -/
theorem c9_stop_emits_no_notification :
    (∀ cfg s, connStateBroadcasts (stopConnection cfg s).2 = [])
    ∧ (∀ cfg s overrideUrl fresh,
        connStateBroadcasts (startConnection cfg s overrideUrl fresh).2 = [])
    ∧ (∀ s, connStateBroadcasts (handleConnected s).2 = [true])
    ∧ (∀ cfg s err, connStateBroadcasts (handleConnectionError cfg s err).2 = [false])
    ∧ (∀ s code reason clean, connStateBroadcasts (handleClosed s code reason clean).2 = [false])
    ∧ (∀ s data size rem, connStateBroadcasts (handleBinaryMessage s data size rem).2 = [])
    ∧ (∀ s parsed msg, connStateBroadcasts (handleMessage s parsed msg).2 = []) := by
  have hstop : ∀ cfg s, connStateBroadcasts (stopConnection cfg s).2 = [] := by
    intro cfg s
    rcases s with ⟨url, conn, ws⟩
    cases ws with
    | none => simp [stopConnection, connStateBroadcasts]
    | some t =>
      by_cases ht : t.isConnected = true <;>
        simp [stopConnection, connStateBroadcasts, ht]
  refine ⟨hstop, ?_, ?_, ?_, ?_, ?_, ?_⟩
  · intro cfg s overrideUrl fresh
    by_cases h : (if overrideUrl.isEmpty then s.webSocketUrl else overrideUrl).isEmpty = true
    · simp [startConnection, h, connStateBroadcasts]
    · simp only [startConnection]
      rw [if_neg h, connStateBroadcasts_append, hstop cfg s]
      simp [connStateBroadcasts]
  · intro s
    simp [handleConnected, connStateBroadcasts]
  · intro cfg s err
    simp [handleConnectionError, connStateBroadcasts]
  · intro s code reason clean
    simp [handleClosed, connStateBroadcasts]
  · intro s data size rem
    cases data with
    | none => simp [handleBinaryMessage, connStateBroadcasts]
    | some bytes =>
      by_cases h : size = 0 <;> simp [handleBinaryMessage, h, connStateBroadcasts]
  · intro s parsed msg
    cases h : tryParseEmotionMessage parsed <;>
      simp [handleMessage, h, connStateBroadcasts]
